import Mathlib

/-!
Verification of the Polly-API client library (poll_fetcher.py, poll_results.py,
user_registration.py, vote_caster.py).

The Python functions are shallowly embedded as pure Lean functions.  The HTTP
transport is abstracted as data: each operation receives the response the
transport produced (`HttpResponse`), and the pagination aggregator receives the
sequence of `fetch_polls` results its successive calls observe.  Network-level
exceptions (timeout, connection error) are out of scope here, as are the
logging side effects: log lines that carry no data flow are dropped, except the
large-limit performance warning of `fetch_polls`, which is tracked explicitly
because the specification mentions it.

Machine-level caveats of the embedding, none of which is exercised by the
claims under verification:
- Python `float` percentages are modelled as exact rationals, and `round(x, 1)`
  as half-up rounding to one decimal (Python floats round half to even);
- Python `str.lower`/`str.strip` are modelled over the ASCII character set;
- rendering of nested JSON containers inside `str()` interpolation is
  approximated.
-/

/-- A decoded JSON value, as produced by `response.json()`. -/
inductive JVal where
  | jnull
  | jbool (b : Bool)
  | jnum (n : Int)
  | jstr (s : String)
  | jlist (xs : List JVal)
  | jrec (fs : List (String × JVal))

/-- Python `isinstance(v, dict)`. -/
def JVal.isRec : JVal → Bool
  | .jrec _ => true
  | _ => false

/-- Python `type(v).__name__` for decoded JSON values. -/
def pyTypeName : JVal → String
  | .jnull => "NoneType"
  | .jbool _ => "bool"
  | .jnum _ => "int"
  | .jstr _ => "str"
  | .jlist _ => "list"
  | .jrec _ => "dict"

/-- First binding of key `k` in an association list (Python dict lookup). -/
def assocGet (k : String) : List (String × JVal) → Option JVal
  | [] => none
  | (k', v) :: rest => if k' = k then some v else assocGet k rest

/-- Python `d[k]` guarded by `isinstance(d, dict) and k in d`. -/
def recGet (v : JVal) (k : String) : Option JVal :=
  match v with
  | .jrec fs => assocGet k fs
  | _ => none

/-- Python `str(v)` on a decoded JSON value (nested containers approximated). -/
def pyStr : JVal → String
  | .jnull => "None"
  | .jbool b => if b then "True" else "False"
  | .jnum n => toString n
  | .jstr s => s
  | .jlist _ => "[...]"
  | .jrec _ => "..."

/-- Python `s.rstrip('/')` as used on every `base_url`. -/
def rstripSlash (s : String) : String :=
  String.mk ((s.data.reverse.dropWhile (fun c => c = '/')).reverse)

/-- Python whitespace characters recognised by `str.strip()` (ASCII subset). -/
def isPySpace (c : Char) : Bool :=
  c = ' ' ∨ c = '\t' ∨ c = '\n' ∨ c = '\r' ∨ c = '\x0b' ∨ c = '\x0c'

/-- Python `s.strip()` (ASCII whitespace). -/
def pyStrip (s : String) : String :=
  String.mk (((s.data.dropWhile isPySpace).reverse.dropWhile isPySpace).reverse)

/-- Python `s[:200]` (first 200 characters of the raw response text). -/
def pyText200 (t : String) : String :=
  String.mk (t.data.take 200)

/-- Python `opt or default` for an optional string
(`None` and the empty string both fall back to the default). -/
def pyOr (o : Option String) (default : String) : String :=
  match o with
  | none => default
  | some s => if s = "" then default else s

/-- A caller-supplied argument as seen by `isinstance(x, int)` checks:
either an integer or a value of some other type. -/
inductive PyArg where
  | int (n : Int)
  | other

/-- Body of an HTTP response: either `response.json()` succeeds with a decoded
value, or it raises `json.JSONDecodeError` and only `response.text` is
available. -/
inductive BodyModel where
  | parsed (v : JVal)
  | unparseable (text : String)

/-- The response the transport handed back for one request. -/
structure HttpResponse where
  status : Int
  body : BodyModel

/-- Exit channel of an embedded Python function: normal return, a raised
`ValueError`, a raised module-specific error (`PollFetchError`,
`UserRegistrationError`, `VoteCastError`, ...), or an unhandled exception. -/
inductive PyOutcome (α : Type) where
  | ok (a : α)
  | valueError (msg : String)
  | raised (msg : String)
  | crash

/-- The GET request `fetch_polls` sends (url plus `skip`/`limit` query). -/
structure ListRequest where
  url : String
  skip : Int
  limit : Int
deriving DecidableEq

/-- The `PollFetchResponse` object of poll_fetcher.py. -/
structure PollFetchResponse where
  success : Bool
  polls : List JVal
  error_message : Option String
  status_code : Option Int
  total_fetched : Nat

/-- One run of `fetch_polls`: its outcome, the requests it sent, and the
performance warnings it emitted. -/
structure FetchPollsRun where
  outcome : PyOutcome PollFetchResponse
  requests : List ListRequest
  warnings : List String

/-- The 200-path validation loop of `fetch_polls` (lines 135-164): elements
that are not dictionaries are skipped with a warning; dictionary elements are
appended unchanged — the required-field and `created_at` checks only log. -/
def validatePolls : List JVal → List JVal
  | [] => []
  | p :: rest =>
    match p with
    | .jrec fs => .jrec fs :: validatePolls rest
    | _ => validatePolls rest

/-- Error message of `fetch_polls`' non-200 branch (lines 179-186): generic
status message, extended by the `detail` field when the body parses, else by
the first 200 characters of the raw text. -/
def fetchPollsElseMsg (status : Int) (body : BodyModel) : String :=
  match body with
  | .parsed v =>
    match recGet v "detail" with
    | some d => "HTTP " ++ toString status ++ ": Failed to fetch polls" ++ " - " ++ pyStr d
    | none => "HTTP " ++ toString status ++ ": Failed to fetch polls"
  | .unparseable t => "HTTP " ++ toString status ++ ": Failed to fetch polls" ++ " - " ++ pyText200 t

/-- `fetch_polls` of poll_fetcher.py, with the transport's response supplied
as data. -/
def fetch_polls (skip limit : PyArg) (base_url : String) (resp : HttpResponse) : FetchPollsRun :=
  match skip with
  | .other => ⟨.valueError "Skip must be a non-negative integer", [], []⟩
  | .int s =>
    if s < 0 then ⟨.valueError "Skip must be a non-negative integer", [], []⟩
    else
      match limit with
      | .other => ⟨.valueError "Limit must be a positive integer", [], []⟩
      | .int l =>
        if l ≤ 0 then ⟨.valueError "Limit must be a positive integer", [], []⟩
        else
          let warns := if 100 < l then
            ["Large limit value (" ++ toString l ++ ") may impact performance"] else []
          let req : ListRequest := ⟨rstripSlash base_url ++ "/polls", s, l⟩
          if resp.status = 200 then
            match resp.body with
            | .unparseable _ => ⟨.raised "Failed to parse JSON response", [req], warns⟩
            | .parsed v =>
              match v with
              | .jlist xs =>
                ⟨.ok ⟨true, validatePolls xs, none, some 200, (validatePolls xs).length⟩,
                  [req], warns⟩
              | _ => ⟨.raised ("Expected list response, got " ++ pyTypeName v), [req], warns⟩
          else
            ⟨.ok ⟨false, [], some (fetchPollsElseMsg resp.status resp.body), some resp.status, 0⟩,
              [req], warns⟩

/-- `fetch_polls_simple` of poll_fetcher.py: fail-fast wrapper. -/
def fetch_polls_simple (skip limit : PyArg) (base_url : String) (resp : HttpResponse) :
    PyOutcome (List JVal) × List ListRequest :=
  let run := fetch_polls skip limit base_url resp
  (match run.outcome with
   | .ok r =>
     if r.success then .ok r.polls
     else .raised ("Poll fetch failed: " ++ pyOr r.error_message "Unknown error")
   | .valueError m => .valueError m
   | .raised m => .raised m
   | .crash => .crash,
   run.requests)

/-- Does `hay` start with `needle`? (helper for the substring check). -/
def startsWithChars : List Char → List Char → Bool
  | _, [] => true
  | [], _ :: _ => false
  | h :: hs, n :: ns => h = n && startsWithChars hs ns

/-- Python `needle in hay` on strings: contiguous-substring containment. -/
def containsChars : List Char → List Char → Bool
  | [], needle => needle.isEmpty
  | c :: rest, needle => startsWithChars (c :: rest) needle || containsChars rest needle

/-- Python `s.lower()` over the character sequence (ASCII case folding). -/
def pyLower (s : String) : List Char :=
  s.data.map Char.toLower

/-- One poll, as filtered by `search_polls_by_question` (lines 423-427):
kept when it has a string `question` field whose lower-casing contains the
lower-cased keyword as a substring. -/
def pollMatches (kw : String) (p : JVal) : Bool :=
  match recGet p "question" with
  | some (.jstr q) => containsChars (pyLower q) (pyLower kw)
  | _ => false

/-- `search_polls_by_question` of poll_fetcher.py (`none` models a non-string
keyword such as Python `None`). -/
def search_polls_by_question (question_keyword : Option String) (skip limit : PyArg)
    (base_url : String) (resp : HttpResponse) : PyOutcome (List JVal) × List ListRequest :=
  match question_keyword with
  | none => (.valueError "Question keyword must be a non-empty string", [])
  | some kw =>
    if kw = "" then (.valueError "Question keyword must be a non-empty string", [])
    else
      let run := fetch_polls_simple skip limit base_url resp
      (match run.1 with
       | .ok polls => .ok (polls.filter (pollMatches kw))
       | .valueError m => .valueError m
       | .raised m => .raised m
       | .crash => .crash,
       run.2)

/-- The `UserRegistrationResponse` object of user_registration.py. -/
structure UserRegistrationResponse where
  success : Bool
  user_data : Option JVal
  error_message : Option String
  status_code : Option Int

/-- The POST request `register_user` sends. -/
structure RegisterRequest where
  url : String
  username : String
  password : String
deriving DecidableEq

/-- One run of `register_user`. -/
structure RegisterRun where
  outcome : PyOutcome UserRegistrationResponse
  requests : List RegisterRequest

/-- Default-or-`detail` message of the recognised-error branches (the body's
`detail` value replaces the default when the body parses to a dict holding
one). -/
def detailOr (body : BodyModel) (default : String) : String :=
  match body with
  | .parsed v =>
    match recGet v "detail" with
    | some d => pyStr d
    | none => default
  | .unparseable _ => default

/-- Error message of `register_user`'s generic branch (lines 154-161): note
the raw text is appended in full, with no 200-character truncation. -/
def registerElseMsg (status : Int) (body : BodyModel) : String :=
  match body with
  | .parsed v =>
    match recGet v "detail" with
    | some d => "Unexpected HTTP status code: " ++ toString status ++ " - " ++ pyStr d
    | none => "Unexpected HTTP status code: " ++ toString status
  | .unparseable t => "Unexpected HTTP status code: " ++ toString status ++ " - " ++ t

/-- `register_user` of user_registration.py (`none` username/password models a
non-string such as Python `None`; the 200 path logs `user_data.get('id')`,
which raises `AttributeError` when the body is not a dict — modelled as
`crash`). -/
def register_user (username password : Option String) (base_url : String)
    (resp : HttpResponse) : RegisterRun :=
  match username with
  | none => ⟨.valueError "Username must be a non-empty string", []⟩
  | some u =>
    if u = "" then ⟨.valueError "Username must be a non-empty string", []⟩
    else
      match password with
      | none => ⟨.valueError "Password must be a non-empty string", []⟩
      | some p =>
        if p = "" then ⟨.valueError "Password must be a non-empty string", []⟩
        else
          let req : RegisterRequest := ⟨rstripSlash base_url ++ "/register", u, p⟩
          if resp.status = 200 then
            match resp.body with
            | .unparseable _ => ⟨.raised "Failed to parse JSON response", [req]⟩
            | .parsed v =>
              if v.isRec then ⟨.ok ⟨true, some v, none, some 200⟩, [req]⟩
              else ⟨.crash, [req]⟩
          else if resp.status = 400 then
            ⟨.ok ⟨false, none, some (detailOr resp.body "Username already registered"),
              some resp.status⟩, [req]⟩
          else
            ⟨.ok ⟨false, none, some (registerElseMsg resp.status resp.body),
              some resp.status⟩, [req]⟩

/-- The `VoteCastResponse` object of vote_caster.py. -/
structure VoteCastResponse where
  success : Bool
  vote_data : Option JVal
  error_message : Option String
  status_code : Option Int

/-- The POST request `cast_vote` sends, including the Authorization header. -/
structure VoteRequest where
  url : String
  authorization : String
  body_option_id : Int
deriving DecidableEq

/-- One run of `cast_vote`. -/
structure VoteRun where
  outcome : PyOutcome VoteCastResponse
  requests : List VoteRequest

/-- Error message of `cast_vote`'s generic branch (lines 212-219): raw text
truncated to 200 characters when the body does not parse. -/
def castVoteElseMsg (status : Int) (body : BodyModel) : String :=
  match body with
  | .parsed v =>
    match recGet v "detail" with
    | some d => "HTTP " ++ toString status ++ ": Failed to cast vote" ++ " - " ++ pyStr d
    | none => "HTTP " ++ toString status ++ ": Failed to cast vote"
  | .unparseable t => "HTTP " ++ toString status ++ ": Failed to cast vote" ++ " - " ++ pyText200 t

/-- `cast_vote` of vote_caster.py.  The emptiness check on `access_token`
(line 96) runs on the raw token; the strip happens only when the
Authorization header is built (line 104).  The 200 path logs
`vote_data.get('id')`, which raises on a non-dict body — modelled as
`crash`. -/
def cast_vote (poll_id option_id : PyArg) (access_token : Option String)
    (base_url : String) (resp : HttpResponse) : VoteRun :=
  match poll_id with
  | .other => ⟨.valueError "Poll ID must be a positive integer", []⟩
  | .int pid =>
    if pid ≤ 0 then ⟨.valueError "Poll ID must be a positive integer", []⟩
    else
      match option_id with
      | .other => ⟨.valueError "Option ID must be a positive integer", []⟩
      | .int oid =>
        if oid ≤ 0 then ⟨.valueError "Option ID must be a positive integer", []⟩
        else
          match access_token with
          | none => ⟨.valueError "Access token must be a non-empty string", []⟩
          | some tok =>
            if tok = "" then ⟨.valueError "Access token must be a non-empty string", []⟩
            else
              let req : VoteRequest :=
                ⟨rstripSlash base_url ++ "/polls/" ++ toString pid ++ "/vote",
                 "Bearer " ++ pyStrip tok, oid⟩
              if resp.status = 200 then
                match resp.body with
                | .unparseable _ => ⟨.raised "Failed to parse JSON response", [req]⟩
                | .parsed v =>
                  if v.isRec then ⟨.ok ⟨true, some v, none, some 200⟩, [req]⟩
                  else ⟨.crash, [req]⟩
              else if resp.status = 401 then
                ⟨.ok ⟨false, none,
                  some (detailOr resp.body "Unauthorized: Invalid or expired access token"),
                  some resp.status⟩, [req]⟩
              else if resp.status = 404 then
                ⟨.ok ⟨false, none, some (detailOr resp.body "Poll or option not found"),
                  some resp.status⟩, [req]⟩
              else
                ⟨.ok ⟨false, none, some (castVoteElseMsg resp.status resp.body),
                  some resp.status⟩, [req]⟩

/-- What one `fetch_polls` call inside `fetch_all_polls` came back with:
the `success`/`polls`/`error_message` fields the aggregator reads.  The poll
payload type is abstract. -/
inductive FetchResult (α : Type) where
  | success (polls : List α)
  | failure (error_message : Option String)

/-- Outcome of `fetch_all_polls`: the aggregated list, a raised
`PollFetchError` or `ValueError`, or `outOfPages` — a modelling artifact
marking that the supplied response sequence ended while the loop would have
issued a further call. -/
inductive FetchOutcome (α : Type) where
  | ok (all_polls : List α)
  | error (msg : String)
  | valueError (msg : String)
  | outOfPages

/-- The `while True` loop of `fetch_all_polls` (lines 335-353).  Arguments:
remaining responses, current `skip`, accumulator.  Also records every
`(skip, limit)` pair the loop passed to `fetch_polls`. -/
def fetchAllGo {α : Type} (b : Int) : List (FetchResult α) → Int → List α →
    FetchOutcome α × List (Int × Int)
  | [], _, _ => (.outOfPages, [])
  | .failure m :: _, skip, _ =>
    (.error ("Failed to fetch polls at skip=" ++ toString skip ++ ": " ++ pyOr m "Unknown error"),
     [(skip, b)])
  | .success [] :: _, skip, acc => (.ok acc, [(skip, b)])
  | .success (p0 :: ps) :: rest, skip, acc =>
    if ((p0 :: ps).length : Int) < b then (.ok (acc ++ (p0 :: ps)), [(skip, b)])
    else
      let r := fetchAllGo b rest (skip + b) (acc ++ (p0 :: ps))
      (r.1, (skip, b) :: r.2)

/-- `fetch_all_polls` of poll_fetcher.py, with the per-call results of
`fetch_polls` supplied as a sequence. -/
def fetch_all_polls {α : Type} (batch_size : Int) (pages : List (FetchResult α)) :
    FetchOutcome α × List (Int × Int) :=
  if batch_size ≤ 0 ∨ 100 < batch_size then
    (.valueError "Batch size must be between 1 and 100", [])
  else fetchAllGo batch_size pages 0 []

/-- One element of a `results_data['results']` array, restricted to its fields
read by poll_results.py.  `none` in a field models its absence from the
dictionary; vote counts, when present, are integers. -/
structure RRec where
  option_id : Option Int
  text : Option String
  vote_count : Option Int
deriving DecidableEq

/-- One element of the results array as Python sees it: a dictionary, or a
value of some other type. -/
inductive RItem where
  | record (r : RRec)
  | other
deriving DecidableEq

/-- The `results_data` dictionary handed back by `get_poll_results_simple`
(the network retrieval is abstracted away; a `none` results field models its
absence). -/
structure ResultsData where
  question : Option String
  results : Option (List RItem)

/-- The max-tracking scan of `get_poll_winner` (lines 343-355): items that are
not dictionaries or lack `vote_count` are skipped; a strictly larger count
resets the winners list, an equal positive count is appended. -/
def winnerScan : List RItem → Int → List RRec → Int × List RRec
  | [], max_votes, winners => (max_votes, winners)
  | .other :: rest, max_votes, winners => winnerScan rest max_votes winners
  | .record r :: rest, max_votes, winners =>
    match r.vote_count with
    | none => winnerScan rest max_votes winners
    | some vc =>
      if max_votes < vc then winnerScan rest vc [r]
      else if vc = max_votes ∧ 0 < vc then winnerScan rest max_votes (winners ++ [r])
      else winnerScan rest max_votes winners

/-- `get_poll_winner` of poll_results.py, on the retrieved results data. -/
def get_poll_winner (rd : ResultsData) : Option RRec :=
  match rd.results with
  | none => none
  | some [] => none
  | some (x :: xs) =>
    let p := winnerScan (x :: xs) 0 []
    if p.2 = [] ∨ p.1 = 0 then none else p.2.head?

/-- Python `sum(option.get('vote_count', 0) for option in results)`
(line 437): `none` models the `AttributeError` raised when an element is not
a dictionary — this sum is the one access without a type guard. -/
def sumVotes : List RItem → Option Int
  | [] => some 0
  | .record r :: rest =>
    match sumVotes rest with
    | some s => some (r.vote_count.getD 0 + s)
    | none => none
  | .other :: _ => none

/-- An option enriched with its percentage (`options_with_percentages`
entries). -/
structure OWP where
  option_id : Option Int
  text : Option String
  vote_count : Int
  percentage : Rat
deriving DecidableEq

/-- Python `round(x, 1)` on the percentage (half-up on exact rationals; the
claims do not depend on the rounding mode). -/
def round1 (x : Rat) : Rat := ((⌊x * 10 + 1 / 2⌋ : Int) : Rat) / 10

/-- The per-option loop of `get_poll_statistics` (lines 445-463): skips
non-dictionaries, computes the percentage, accumulates the enriched options,
and tracks the max-vote winner.  Returns (max_votes, winner, accumulated). -/
def statsLoop (total : Int) : List RItem → Int → Option OWP → List OWP →
    Int × Option OWP × List OWP
  | [], max_votes, winner, acc => (max_votes, winner, acc)
  | .other :: rest, max_votes, winner, acc => statsLoop total rest max_votes winner acc
  | .record r :: rest, max_votes, winner, acc =>
    let vc := r.vote_count.getD 0
    let pct : Rat := if 0 < total then (vc : Rat) / (total : Rat) * 100 else 0
    let owp : OWP := ⟨r.option_id, r.text, vc, round1 pct⟩
    if max_votes < vc then statsLoop total rest vc (some owp) (acc ++ [owp])
    else statsLoop total rest max_votes winner (acc ++ [owp])

/-- Stable insertion keeping vote counts descending: an element goes after
every earlier element whose count is at least as large (models the stable
`list.sort(key=..., reverse=True)` of line 466). -/
def insertByVotes (x : OWP) : List OWP → List OWP
  | [] => [x]
  | y :: ys => if y.vote_count < x.vote_count then x :: y :: ys else y :: insertByVotes x ys

/-- Sort by vote count descending, stably. -/
def sortByVotesDesc (l : List OWP) : List OWP :=
  l.foldl (fun acc x => insertByVotes x acc) []

/-- The statistics dictionary `get_poll_statistics` returns. -/
structure Stats where
  poll_id : Int
  question : String
  total_votes : Int
  options_count : Nat
  winner : Option OWP
  options_with_percentages : List OWP
deriving DecidableEq

/-- `get_poll_statistics` of poll_results.py, on the retrieved results data;
`none` models the `AttributeError` of the unguarded sum on a non-dictionary
element. -/
def get_poll_statistics (poll_id : Int) (rd : ResultsData) : Option Stats :=
  match rd.results with
  | none => some ⟨poll_id, rd.question.getD "", 0, 0, none, []⟩
  | some [] => some ⟨poll_id, rd.question.getD "", 0, 0, none, []⟩
  | some (x :: xs) =>
    match sumVotes (x :: xs) with
    | none => none
    | some total_votes =>
      let t := statsLoop total_votes (x :: xs) 0 none []
      some ⟨poll_id, rd.question.getD "", total_votes, (x :: xs).length,
        if 0 < t.1 then t.2.1 else none, sortByVotesDesc t.2.2⟩

/-! ### Helper lemmas -/

theorem pyStrip_eq_empty_of_all_space (tok : String)
    (h : ∀ c ∈ tok.data, isPySpace c = true) : pyStrip tok = "" := by
  unfold pyStrip
  have h1 : tok.data.dropWhile isPySpace = [] := List.dropWhile_eq_nil_iff.mpr h
  rw [h1]
  rfl

theorem validatePolls_eq_filter (xs : List JVal) :
    validatePolls xs = xs.filter JVal.isRec := by
  induction xs with
  | nil => rfl
  | cons p rest ih =>
    cases p <;> simp [validatePolls, List.filter, JVal.isRec, ih]

theorem head?_filter_eq_find? {α : Type} (p : α → Bool) (l : List α) :
    (l.filter p).head? = l.find? p := by
  induction l with
  | nil => rfl
  | cons x rest ih =>
    by_cases hx : p x
    · simp [List.filter, List.find?, hx]
    · simp only [Bool.not_eq_true] at hx
      simp [List.filter, List.find?, hx, ih]

/-! ### Claim C7: input validation of `fetch_polls` -/

/-- Claim C7: `fetch_polls` raises `ValueError` before any network request
for a non-integer or negative `skip` and for a non-integer or non-positive
`limit`; a `limit` above 100 is not rejected — the request is sent and only a
performance warning is emitted. -/
theorem fetch_polls_validation :
    (∀ limit base_url resp, fetch_polls PyArg.other limit base_url resp =
        ⟨.valueError "Skip must be a non-negative integer", [], []⟩)
    ∧ (∀ s limit base_url resp, s < 0 → fetch_polls (PyArg.int s) limit base_url resp =
        ⟨.valueError "Skip must be a non-negative integer", [], []⟩)
    ∧ (∀ s base_url resp, 0 ≤ s → fetch_polls (PyArg.int s) PyArg.other base_url resp =
        ⟨.valueError "Limit must be a positive integer", [], []⟩)
    ∧ (∀ s l base_url resp, 0 ≤ s → l ≤ 0 →
        fetch_polls (PyArg.int s) (PyArg.int l) base_url resp =
          ⟨.valueError "Limit must be a positive integer", [], []⟩)
    ∧ (∀ s l base_url resp, 0 ≤ s → 100 < l →
        (fetch_polls (PyArg.int s) (PyArg.int l) base_url resp).requests =
          [⟨rstripSlash base_url ++ "/polls", s, l⟩]
        ∧ (fetch_polls (PyArg.int s) (PyArg.int l) base_url resp).warnings =
          ["Large limit value (" ++ toString l ++ ") may impact performance"]
        ∧ ∀ m, (fetch_polls (PyArg.int s) (PyArg.int l) base_url resp).outcome ≠
            .valueError m) := by
  refine ⟨fun _ _ _ => rfl, ?_, ?_, ?_, ?_⟩
  · intro s limit base_url resp hs
    simp [fetch_polls, hs]
  · intro s base_url resp hs
    simp [fetch_polls, not_lt.mpr hs]
  · intro s l base_url resp hs hl
    simp [fetch_polls, not_lt.mpr hs, hl]
  · intro s l base_url resp hs hl
    have h1 : ¬ s < 0 := not_lt.mpr hs
    have h2 : ¬ l ≤ 0 := by omega
    obtain ⟨st, body⟩ := resp
    by_cases hst : st = 200
    · cases body with
      | parsed v =>
        cases v <;> refine ⟨?_, ?_, ?_⟩ <;> simp [fetch_polls, h1, h2, hl, hst]
      | unparseable t =>
        refine ⟨?_, ?_, ?_⟩ <;> simp [fetch_polls, h1, h2, hl, hst]
    · cases body <;> refine ⟨?_, ?_, ?_⟩ <;> simp [fetch_polls, h1, h2, hl, hst]

/-- Witness for C7 at concrete inputs. -/
theorem fetch_polls_validation_witness :
    fetch_polls PyArg.other (PyArg.int 10) "http://api" ⟨200, .parsed (.jlist [])⟩ =
      ⟨.valueError "Skip must be a non-negative integer", [], []⟩
    ∧ fetch_polls (PyArg.int (-1)) (PyArg.int 10) "http://api" ⟨200, .parsed (.jlist [])⟩ =
      ⟨.valueError "Skip must be a non-negative integer", [], []⟩
    ∧ fetch_polls (PyArg.int 0) (PyArg.int 0) "http://api" ⟨200, .parsed (.jlist [])⟩ =
      ⟨.valueError "Limit must be a positive integer", [], []⟩
    ∧ (fetch_polls (PyArg.int 0) (PyArg.int 101) "http://api"
        ⟨200, .parsed (.jlist [])⟩).warnings =
      ["Large limit value (101) may impact performance"] := by
  have h := fetch_polls_validation
  refine ⟨h.1 _ _ _, h.2.1 _ _ _ _ (by decide), h.2.2.2.1 _ _ _ _ (by decide) (by decide), ?_⟩
  have h5 := (h.2.2.2.2 0 101 "http://api" ⟨200, .parsed (.jlist [])⟩
    (by decide) (by decide)).2.1
  rw [h5]
  rfl

/-! ### Claim C10: whitespace-only access token in `cast_vote` -/

/-- Claim C10: the non-emptiness check on `access_token` runs before the
strip, so a non-empty all-whitespace token passes validation and the request
goes out with Authorization header exactly `"Bearer "`. -/
theorem cast_vote_whitespace_token (pid oid : Int) (hp : 0 < pid) (ho : 0 < oid)
    (tok : String) (hne : tok ≠ "") (hws : ∀ c ∈ tok.data, isPySpace c = true)
    (base_url : String) (resp : HttpResponse) :
    (cast_vote (PyArg.int pid) (PyArg.int oid) (some tok) base_url resp).requests =
      [⟨rstripSlash base_url ++ "/polls/" ++ toString pid ++ "/vote", "Bearer ", oid⟩]
    ∧ ∀ m, (cast_vote (PyArg.int pid) (PyArg.int oid) (some tok) base_url resp).outcome ≠
        .valueError m := by
  have h1 : ¬ pid ≤ 0 := by omega
  have h2 : ¬ oid ≤ 0 := by omega
  have h3 : pyStrip tok = "" := pyStrip_eq_empty_of_all_space tok hws
  obtain ⟨st, body⟩ := resp
  by_cases hst : st = 200
  · cases body with
    | parsed v =>
      cases v <;> constructor <;>
        simp [cast_vote, h1, h2, hne, h3, hst, String.append_empty, JVal.isRec]
    | unparseable t =>
      constructor <;> simp [cast_vote, h1, h2, hne, h3, hst, String.append_empty]
  · by_cases h401 : st = 401
    · cases body <;> constructor <;>
        simp [cast_vote, h1, h2, hne, h3, hst, h401, String.append_empty]
    · by_cases h404 : st = 404
      · cases body <;> constructor <;>
          simp [cast_vote, h1, h2, hne, h3, hst, h401, h404, String.append_empty]
      · cases body <;> constructor <;>
          simp [cast_vote, h1, h2, hne, h3, hst, h401, h404, String.append_empty]

/-- Witness for C10: three spaces as token. -/
theorem cast_vote_whitespace_token_witness :
    (cast_vote (PyArg.int 1) (PyArg.int 2) (some "   ") "http://api"
        ⟨401, .unparseable "x"⟩).requests =
      [⟨rstripSlash "http://api" ++ "/polls/" ++ toString (1 : Int) ++ "/vote", "Bearer ", 2⟩] :=
  (cast_vote_whitespace_token 1 2 (by decide) (by decide) "   " (by decide)
    (by decide) "http://api" ⟨401, .unparseable "x"⟩).1

/-! ### Claim C5 (corrected): the 200-path round trip of `fetch_polls` -/

/-- Counterexample to C5 as stated: the body `[42]` parses as the expected
top-level list, yet the Success data is `[]`, not the body element for
element — the non-dictionary element was dropped, not kept. -/
theorem fetch_polls_roundtrip_cex :
    (fetch_polls (PyArg.int 0) (PyArg.int 10) "http://api"
        ⟨200, .parsed (.jlist [.jnum 42])⟩).outcome =
      .ok ⟨true, [], none, some 200, 0⟩
    ∧ [JVal.jnum 42] ≠ ([] : List JVal) := by
  exact ⟨rfl, by simp⟩

/-- Claim C5 as amended: on a 200 response whose body parses as a list, the
Success data is the body with its non-dictionary elements removed; every
dictionary element is kept as-is regardless of missing fields or timestamp
parse failures (those only produce warnings), so when all elements are
dictionaries the data equals the parsed body element for element. -/
theorem fetch_polls_success_data (s l : Int) (hs : 0 ≤ s) (hl : 0 < l)
    (base_url : String) (xs : List JVal) :
    (fetch_polls (PyArg.int s) (PyArg.int l) base_url
        ⟨200, .parsed (.jlist xs)⟩).outcome =
      .ok ⟨true, xs.filter JVal.isRec, none, some 200, (xs.filter JVal.isRec).length⟩
    ∧ ((∀ x ∈ xs, x.isRec = true) →
      (fetch_polls (PyArg.int s) (PyArg.int l) base_url
          ⟨200, .parsed (.jlist xs)⟩).outcome =
        .ok ⟨true, xs, none, some 200, xs.length⟩) := by
  have h1 : ¬ s < 0 := not_lt.mpr hs
  have h2 : ¬ l ≤ 0 := by omega
  constructor
  · simp [fetch_polls, h1, h2, validatePolls_eq_filter]
  · intro hall
    have hself : xs.filter JVal.isRec = xs := List.filter_eq_self.mpr hall
    simp [fetch_polls, h1, h2, validatePolls_eq_filter, hself]

/-- Witness for the amended C5 at a concrete record-only body. -/
theorem fetch_polls_success_data_witness :
    (fetch_polls (PyArg.int 0) (PyArg.int 10) "http://api"
        ⟨200, .parsed (.jlist [.jrec [("id", .jnum 1)]])⟩).outcome =
      .ok ⟨true, [.jrec [("id", .jnum 1)]], none, some 200, 1⟩ := by
  have h := (fetch_polls_success_data 0 10 (by decide) (by decide) "http://api"
    [.jrec [("id", .jnum 1)]]).2 (by decide)
  exact h

/-! ### Claim C6 (corrected): unparseable-body error messages -/

/-- A 250-character raw body used to exhibit the missing truncation. -/
def longRaw : String := String.mk (List.replicate 250 'a')

set_option maxRecDepth 8000 in
/-- Counterexample to C6 as stated: `register_user`'s generic branch appends
the entire raw text — here 250 characters, more than the claimed 200-character
cap — to the status message. -/
theorem register_error_untruncated_cex :
    (register_user (some "alice") (some "pw") "http://api"
        ⟨500, .unparseable longRaw⟩).outcome =
      .ok ⟨false, none, some ("Unexpected HTTP status code: 500 - " ++ longRaw), some 500⟩
    ∧ 200 < longRaw.data.length := by
  constructor
  · rfl
  · decide

/-- Claim C6 as amended: on an unparseable non-success body, `fetch_polls`
(any non-200 status) and `cast_vote` (statuses other than 200/401/404) append
at most the first 200 characters of the raw text to the generic status-based
message, while `register_user`'s generic branch (statuses other than 200/400)
appends the entire raw text without truncation. -/
theorem error_message_fallback :
    (∀ s l base_url st t, 0 ≤ s → 0 < l → st ≠ 200 →
      (fetch_polls (PyArg.int s) (PyArg.int l) base_url ⟨st, .unparseable t⟩).outcome =
        .ok ⟨false, [],
          some ("HTTP " ++ toString st ++ ": Failed to fetch polls" ++ " - " ++ pyText200 t),
          some st, 0⟩
      ∧ (pyText200 t).data.length ≤ 200)
    ∧ (∀ pid oid tok base_url st t, 0 < pid → 0 < oid → tok ≠ "" →
        st ≠ 200 → st ≠ 401 → st ≠ 404 →
      (cast_vote (PyArg.int pid) (PyArg.int oid) (some tok) base_url
          ⟨st, .unparseable t⟩).outcome =
        .ok ⟨false, none,
          some ("HTTP " ++ toString st ++ ": Failed to cast vote" ++ " - " ++ pyText200 t),
          some st⟩
      ∧ (pyText200 t).data.length ≤ 200)
    ∧ (∀ u p base_url st t, u ≠ "" → p ≠ "" → st ≠ 200 → st ≠ 400 →
      (register_user (some u) (some p) base_url ⟨st, .unparseable t⟩).outcome =
        .ok ⟨false, none,
          some ("Unexpected HTTP status code: " ++ toString st ++ " - " ++ t),
          some st⟩) := by
  refine ⟨?_, ?_, ?_⟩
  · intro s l base_url st t hs hl hst
    have h1 : ¬ s < 0 := not_lt.mpr hs
    have h2 : ¬ l ≤ 0 := by omega
    constructor
    · simp [fetch_polls, h1, h2, hst, fetchPollsElseMsg]
    · simp only [pyText200, List.length_take]
      omega
  · intro pid oid tok base_url st t hp ho htok hst h401 h404
    have h1 : ¬ pid ≤ 0 := by omega
    have h2 : ¬ oid ≤ 0 := by omega
    constructor
    · simp [cast_vote, h1, h2, htok, hst, h401, h404, castVoteElseMsg]
    · simp only [pyText200, List.length_take]
      omega
  · intro u p base_url st t hu hp hst h400
    simp [register_user, hu, hp, hst, h400, registerElseMsg]

/-- Witness for the amended C6 at concrete inputs. -/
theorem error_message_fallback_witness :
    (fetch_polls (PyArg.int 0) (PyArg.int 10) "http://api"
        ⟨500, .unparseable "boom"⟩).outcome =
      .ok ⟨false, [], some "HTTP 500: Failed to fetch polls - boom", some 500, 0⟩
    ∧ (cast_vote (PyArg.int 1) (PyArg.int 2) (some "tok") "http://api"
        ⟨500, .unparseable "boom"⟩).outcome =
      .ok ⟨false, none, some "HTTP 500: Failed to cast vote - boom", some 500⟩ := by
  constructor
  · have h := (error_message_fallback.1 0 10 "http://api" 500 "boom"
      (by decide) (by decide) (by decide)).1
    rw [h]
    rfl
  · have h := (error_message_fallback.2.1 1 2 "tok" "http://api" 500 "boom"
      (by decide) (by decide) (by decide) (by decide) (by decide) (by decide)).1
    rw [h]
    rfl

/-! ### Claim C8: client-side search -/

theorem filter_matches_validate (kw : String) (xs : List JVal) :
    (validatePolls xs).filter (pollMatches kw) =
      xs.filter (fun p => p.isRec && pollMatches kw p) := by
  rw [validatePolls_eq_filter, List.filter_filter]
  exact List.filter_congr (fun x _ => Bool.and_comm _ _)

/-- Claim C8: `search_polls_by_question` rejects an empty or non-string
keyword before any fetch; for a non-empty keyword it issues exactly one
ListPolls request with the given window and returns exactly the page's polls
whose lower-cased `question` contains the lower-cased keyword. -/
theorem search_polls_validation_and_filter :
    (∀ skip limit base_url resp,
      search_polls_by_question none skip limit base_url resp =
        (.valueError "Question keyword must be a non-empty string", []))
    ∧ (∀ skip limit base_url resp,
      search_polls_by_question (some "") skip limit base_url resp =
        (.valueError "Question keyword must be a non-empty string", []))
    ∧ (∀ kw s l base_url xs, kw ≠ "" → 0 ≤ s → 0 < l →
      search_polls_by_question (some kw) (PyArg.int s) (PyArg.int l) base_url
          ⟨200, .parsed (.jlist xs)⟩ =
        (.ok (xs.filter (fun p => p.isRec && pollMatches kw p)),
         [⟨rstripSlash base_url ++ "/polls", s, l⟩])) := by
  refine ⟨fun _ _ _ _ => rfl, fun _ _ _ _ => rfl, ?_⟩
  intro kw s l base_url xs hkw hs hl
  have h1 : ¬ s < 0 := not_lt.mpr hs
  have h2 : ¬ l ≤ 0 := by omega
  simp [search_polls_by_question, hkw, fetch_polls_simple, fetch_polls, h1, h2,
    filter_matches_validate]

/-- Witness for C8: the keyword "favorite" matches one of two polls. -/
theorem search_polls_witness :
    search_polls_by_question (some "favorite") (PyArg.int 0) (PyArg.int 10) "http://api"
        ⟨200, .parsed (.jlist
          [.jrec [("id", .jnum 1), ("question", .jstr "What is your favorite color?")],
           .jrec [("id", .jnum 2), ("question", .jstr "Best programming language?")]])⟩ =
      (.ok [.jrec [("id", .jnum 1), ("question", .jstr "What is your favorite color?")]],
       [⟨"http://api/polls", 0, 10⟩]) := by
  have h := search_polls_validation_and_filter.2.2 "favorite" 0 10 "http://api"
    [.jrec [("id", .jnum 1), ("question", .jstr "What is your favorite color?")],
     .jrec [("id", .jnum 2), ("question", .jstr "Best programming language?")]]
    (by decide) (by decide) (by decide)
  rw [h]
  rfl

/-! ### Claims C9 and C4: `get_poll_statistics` -/

theorem sumVotes_eq_none_iff (l : List RItem) : sumVotes l = none ↔ RItem.other ∈ l := by
  induction l with
  | nil => simp [sumVotes]
  | cons x rest ih =>
    cases x with
    | record r =>
      cases h : sumVotes rest with
      | none => simp [sumVotes, h, ← ih, List.mem_cons]
      | some s =>
        have : RItem.other ∉ rest := fun hm => by
          rw [← ih] at hm; rw [hm] at h; cases h
        simp [sumVotes, h, List.mem_cons, this]
    | other => simp [sumVotes, List.mem_cons]

theorem sumVotes_zero_bounds (l : List RItem)
    (hnn : ∀ r, RItem.record r ∈ l → 0 ≤ r.vote_count.getD 0) :
    ∀ s, sumVotes l = some s →
      0 ≤ s ∧ (s = 0 → ∀ r, RItem.record r ∈ l → r.vote_count.getD 0 ≤ 0) := by
  induction l with
  | nil =>
    intro s hs
    cases hs
    exact ⟨le_refl 0, fun _ r hr => absurd hr (List.not_mem_nil _)⟩
  | cons x rest ih =>
    intro s hs
    cases x with
    | other => cases hs
    | record r =>
      cases h : sumVotes rest with
      | none => rw [sumVotes, h] at hs; cases hs
      | some s' =>
        rw [sumVotes, h] at hs
        cases hs
        have hnn' : ∀ r', RItem.record r' ∈ rest → 0 ≤ r'.vote_count.getD 0 :=
          fun r' hr' => hnn r' (List.mem_cons_of_mem _ hr')
        have hr0 : 0 ≤ r.vote_count.getD 0 := hnn r (List.mem_cons_self _ _)
        obtain ⟨hs'0, hrec⟩ := ih hnn' s' h
        refine ⟨by omega, fun hz r' hr' => ?_⟩
        rcases List.mem_cons.mp hr' with heq | hmem
        · have : r' = r := by cases heq; rfl
          subst this
          omega
        · exact hrec (by omega) r' hmem

theorem statsLoop_no_update (total : Int) (l : List RItem)
    (hle : ∀ r, RItem.record r ∈ l → r.vote_count.getD 0 ≤ 0) :
    ∀ m w acc, 0 ≤ m →
      (statsLoop total l m w acc).1 = m ∧ (statsLoop total l m w acc).2.1 = w := by
  induction l with
  | nil => intro m w acc _; exact ⟨rfl, rfl⟩
  | cons x rest ih =>
    intro m w acc hm
    cases x with
    | other =>
      exact ih (fun r hr => hle r (List.mem_cons_of_mem _ hr)) m w acc hm
    | record r =>
      have hvc : r.vote_count.getD 0 ≤ 0 := hle r (List.mem_cons_self _ _)
      have hnot : ¬ m < r.vote_count.getD 0 := by omega
      simp only [statsLoop, hnot, if_false]
      exact ih (fun r' hr' => hle r' (List.mem_cons_of_mem _ hr')) m w _ hm

/-- Claim C9: with every element of a non-empty results list a dictionary,
`get_poll_statistics` completes without error; with any non-dictionary
element present, the unguarded total-votes sum raises (`none`), so the
record-only precondition is necessary. -/
theorem get_poll_statistics_totality (pid : Int) (q : Option String) (rs : List RItem) :
    ((∀ x ∈ rs, x ≠ RItem.other) →
      (get_poll_statistics pid ⟨q, some rs⟩).isSome = true)
    ∧ (RItem.other ∈ rs → get_poll_statistics pid ⟨q, some rs⟩ = none) := by
  constructor
  · intro h
    cases rs with
    | nil => rfl
    | cons x xs =>
      have hne : sumVotes (x :: xs) ≠ none := by
        rw [Ne, sumVotes_eq_none_iff]
        intro hmem
        exact (h _ hmem) rfl
      cases hsum : sumVotes (x :: xs) with
      | none => exact absurd hsum hne
      | some total => simp [get_poll_statistics, hsum]
  · intro h
    cases rs with
    | nil => exact absurd h (List.not_mem_nil _)
    | cons x xs =>
      have hsum : sumVotes (x :: xs) = none := (sumVotes_eq_none_iff (x :: xs)).mpr h
      simp [get_poll_statistics, hsum]

/-- Witness for C9: a one-record list succeeds; a non-dictionary element
crashes the sum. -/
theorem get_poll_statistics_totality_witness :
    (get_poll_statistics 1 ⟨none, some [RItem.record ⟨some 1, some "a", some 3⟩]⟩).isSome = true
    ∧ get_poll_statistics 1 ⟨none, some [RItem.other]⟩ = none :=
  ⟨(get_poll_statistics_totality 1 none [RItem.record ⟨some 1, some "a", some 3⟩]).1 (by decide),
   (get_poll_statistics_totality 1 none [RItem.other]).2 (by decide)⟩

/-- Counterexample to C4 as stated: with vote counts 5 and -5 (negative
counts are tolerated by the validator), the total is 0 yet the reported
winner is not null — nullity is governed by `max_votes`, not by the total. -/
theorem get_poll_statistics_total_zero_cex :
    (get_poll_statistics 1 ⟨none, some [RItem.record ⟨some 1, some "a", some 5⟩,
        RItem.record ⟨some 2, some "b", some (-5)⟩]⟩).map Stats.total_votes = some 0
    ∧ (get_poll_statistics 1 ⟨none, some [RItem.record ⟨some 1, some "a", some 5⟩,
        RItem.record ⟨some 2, some "b", some (-5)⟩]⟩).map Stats.winner ≠ some none := by
  constructor
  · rfl
  · decide

/-- Claim C4 as amended: the statistics winner is null whenever the total
vote count is 0, provided no vote count is negative (with a negative count
the total can vanish while the scan's max stays positive and a winner is
reported; the code's guard is `max_votes > 0`, not `total_votes == 0`). -/
theorem get_poll_statistics_winner_null (pid : Int) (q : Option String) (rs : List RItem)
    (s : Stats)
    (hnn : ∀ r, RItem.record r ∈ rs → 0 ≤ r.vote_count.getD 0)
    (hs : get_poll_statistics pid ⟨q, some rs⟩ = some s)
    (h0 : s.total_votes = 0) : s.winner = none := by
  cases rs with
  | nil =>
    simp only [get_poll_statistics, Option.some.injEq] at hs
    rw [← hs]
  | cons x xs =>
    cases hsum : sumVotes (x :: xs) with
    | none => rw [get_poll_statistics] at hs; simp [hsum] at hs
    | some total =>
      rw [get_poll_statistics] at hs
      simp only [hsum, Option.some.injEq] at hs
      subst hs
      simp only [Stats.total_votes] at h0
      subst h0
      have hle := (sumVotes_zero_bounds (x :: xs) hnn 0 hsum).2 rfl
      have hloop := statsLoop_no_update 0 (x :: xs) hle 0 none [] (le_refl 0)
      simp only [Stats.winner, hloop.1, hloop.2]
      simp

/-! ### Claim C3: winner determination -/

/-- Running maximum of the valid vote counts, seeded with `m` (mirrors the
`max_votes` variable of the scan). -/
def maxFrom (m : Int) : List RItem → Int
  | [] => m
  | .record r :: rest =>
    match r.vote_count with
    | some vc => if m < vc then maxFrom vc rest else maxFrom m rest
    | none => maxFrom m rest
  | .other :: rest => maxFrom m rest

/-- The dictionaries of the list whose `vote_count` equals `c`, in order. -/
def recsWithCount (c : Int) : List RItem → List RRec
  | [] => []
  | .record r :: rest =>
    if r.vote_count = some c then r :: recsWithCount c rest else recsWithCount c rest
  | .other :: rest => recsWithCount c rest

/-- The maximum vote count of a results list (0 when empty), the quantity
the claim's "maximum vote count" refers to. -/
def maxVoteCount (rs : List RRec) : Int :=
  rs.foldl (fun m r => max m (r.vote_count.getD 0)) 0

theorem le_maxFrom (l : List RItem) : ∀ m : Int, m ≤ maxFrom m l := by
  induction l with
  | nil => intro m; exact le_refl m
  | cons x rest ih =>
    intro m
    cases x with
    | other => exact ih m
    | record r =>
      cases hv : r.vote_count with
      | none => simp only [maxFrom, hv]; exact ih m
      | some vc =>
        simp only [maxFrom, hv]
        by_cases h : m < vc
        · rw [if_pos h]; exact le_trans (le_of_lt h) (ih vc)
        · rw [if_neg h]; exact ih m

theorem maxFrom_exists (l : List RItem) : ∀ m : Int, m < maxFrom m l →
    ∃ r, RItem.record r ∈ l ∧ r.vote_count = some (maxFrom m l) := by
  induction l with
  | nil => intro m h; exact absurd h (lt_irrefl m)
  | cons x rest ih =>
    intro m h
    cases x with
    | other =>
      simp only [maxFrom] at h ⊢
      obtain ⟨r, hr, hc⟩ := ih m h
      exact ⟨r, List.mem_cons_of_mem _ hr, hc⟩
    | record r =>
      cases hv : r.vote_count with
      | none =>
        simp only [maxFrom, hv] at h ⊢
        obtain ⟨r', hr', hc⟩ := ih m h
        exact ⟨r', List.mem_cons_of_mem _ hr', hc⟩
      | some vc =>
        simp only [maxFrom, hv] at h ⊢
        by_cases h1 : m < vc
        · rw [if_pos h1] at h ⊢
          by_cases h2 : vc < maxFrom vc rest
          · obtain ⟨r', hr', hc⟩ := ih vc h2
            exact ⟨r', List.mem_cons_of_mem _ hr', hc⟩
          · have he : maxFrom vc rest = vc := le_antisymm (not_lt.mp h2) (le_maxFrom rest vc)
            exact ⟨r, List.mem_cons_self _ _, by rw [he]; exact hv⟩
        · rw [if_neg h1] at h ⊢
          obtain ⟨r', hr', hc⟩ := ih m h
          exact ⟨r', List.mem_cons_of_mem _ hr', hc⟩

theorem count_le_maxFrom (l : List RItem) : ∀ (m : Int) (r : RRec) (vc : Int),
    RItem.record r ∈ l → r.vote_count = some vc → vc ≤ maxFrom m l := by
  induction l with
  | nil => intro m r vc h _; exact absurd h (List.not_mem_nil _)
  | cons x rest ih =>
    intro m r vc hmem hvc
    rcases List.mem_cons.mp hmem with heq | hmem'
    · cases heq.symm
      simp only [maxFrom, hvc]
      by_cases h1 : m < vc
      · rw [if_pos h1]; exact le_maxFrom rest vc
      · rw [if_neg h1]; exact le_trans (not_lt.mp h1) (le_maxFrom rest m)
    · cases x with
      | other => simp only [maxFrom]; exact ih m r vc hmem' hvc
      | record r2 =>
        cases hv2 : r2.vote_count with
        | none => simp only [maxFrom, hv2]; exact ih m r vc hmem' hvc
        | some vc2 =>
          simp only [maxFrom, hv2]
          by_cases h1 : m < vc2
          · rw [if_pos h1]; exact ih vc2 r vc hmem' hvc
          · rw [if_neg h1]; exact ih m r vc hmem' hvc

theorem mem_recsWithCount (l : List RItem) (r : RRec) (c : Int)
    (hmem : RItem.record r ∈ l) (hc : r.vote_count = some c) :
    r ∈ recsWithCount c l := by
  induction l with
  | nil => exact absurd hmem (List.not_mem_nil _)
  | cons x xs ih =>
    rcases List.mem_cons.mp hmem with heq | h'
    · cases heq.symm
      simp only [recsWithCount, if_pos hc]
      exact List.mem_cons_self _ _
    · cases x with
      | other => simp only [recsWithCount]; exact ih h'
      | record r2 =>
        by_cases h2 : r2.vote_count = some c
        · simp only [recsWithCount, if_pos h2]
          exact List.mem_cons_of_mem _ (ih h')
        · simp only [recsWithCount, if_neg h2]
          exact ih h'

theorem winnerScan_eq (l : List RItem) : ∀ (m : Int) (ws : List RRec), 0 ≤ m →
    winnerScan l m ws =
      (maxFrom m l,
       if m < maxFrom m l then recsWithCount (maxFrom m l) l
       else ws ++ (if 0 < m then recsWithCount m l else [])) := by
  induction l with
  | nil =>
    intro m ws hm
    simp [winnerScan, maxFrom, recsWithCount]
  | cons x rest ih =>
    intro m ws hm
    cases x with
    | other =>
      simp only [winnerScan, maxFrom, recsWithCount]
      exact ih m ws hm
    | record r =>
      cases hv : r.vote_count with
      | none =>
        simp only [winnerScan, maxFrom, recsWithCount, hv]
        exact ih m ws hm
      | some vc =>
        simp only [winnerScan, maxFrom, recsWithCount, hv]
        by_cases h1 : m < vc
        · rw [if_pos h1, if_pos h1, ih vc [r] (by omega)]
          have hvM : vc ≤ maxFrom vc rest := le_maxFrom rest vc
          by_cases h2 : vc < maxFrom vc rest
          · rw [if_pos h2, if_pos (lt_trans h1 h2)]
            have hne : ¬ (some vc = some (maxFrom vc rest)) := by
              intro he
              exact absurd (Option.some.inj he) (ne_of_lt h2)
            rw [if_neg hne]
          · have hM : maxFrom vc rest = vc := le_antisymm (not_lt.mp h2) hvM
            have h0vc : 0 < vc := lt_of_le_of_lt hm h1
            rw [if_neg h2, hM, if_pos h1, if_pos rfl, if_pos h0vc]
            simp
        · rw [if_neg h1, if_neg h1]
          by_cases h2 : vc = m ∧ 0 < vc
          · rw [if_pos h2, ih m (ws ++ [r]) hm]
            obtain ⟨rfl, hpos⟩ := h2
            by_cases h3 : vc < maxFrom vc rest
            · rw [if_pos h3, if_pos h3]
              have hne : ¬ (some vc = some (maxFrom vc rest)) := by
                intro he
                exact absurd (Option.some.inj he) (ne_of_lt h3)
              rw [if_neg hne]
            · rw [if_neg h3, if_neg h3, if_pos hpos, if_pos hpos, if_pos rfl]
              simp
          · rw [if_neg h2, ih m ws hm]
            by_cases h3 : m < maxFrom m rest
            · rw [if_pos h3, if_pos h3]
              have hvm : vc ≤ m := not_lt.mp h1
              have hne : ¬ (some vc = some (maxFrom m rest)) := by
                intro he
                exact absurd (Option.some.inj he) (ne_of_lt (lt_of_le_of_lt hvm h3))
              rw [if_neg hne]
            · rw [if_neg h3, if_neg h3]
              by_cases h4 : 0 < m
              · rw [if_pos h4, if_pos h4]
                have hne : ¬ (some vc = some m) := by
                  intro he
                  have hvm : vc = m := Option.some.inj he
                  exact h2 ⟨hvm, hvm ▸ h4⟩
                rw [if_neg hne]
              · rw [if_neg h4, if_neg h4]

theorem maxFrom_map_record (rs : List RRec) : ∀ m : Int,
    (∀ r ∈ rs, (r.vote_count).isSome = true) →
    maxFrom m (rs.map RItem.record) =
      rs.foldl (fun a r => max a (r.vote_count.getD 0)) m := by
  induction rs with
  | nil => intro m _; rfl
  | cons r rest ih =>
    intro m h
    obtain ⟨vc, hvc⟩ := Option.isSome_iff_exists.mp (h r (List.mem_cons_self _ _))
    simp only [List.map_cons, maxFrom, hvc, List.foldl_cons, Option.getD_some]
    have hrest : ∀ r' ∈ rest, (r'.vote_count).isSome = true :=
      fun r' hr' => h r' (List.mem_cons_of_mem _ hr')
    by_cases h1 : m < vc
    · rw [if_pos h1, max_eq_right (le_of_lt h1)]
      exact ih vc hrest
    · rw [if_neg h1, max_eq_left (not_lt.mp h1)]
      exact ih m hrest

theorem recsWithCount_map_record (c : Int) (rs : List RRec) :
    recsWithCount c (rs.map RItem.record) =
      rs.filter (fun r => r.vote_count = some c) := by
  induction rs with
  | nil => rfl
  | cons r rest ih =>
    by_cases h : r.vote_count = some c
    · simp [recsWithCount, List.filter, h, ih]
    · simp [recsWithCount, List.filter, h, ih]

theorem get_poll_winner_none_iff (q : Option String) (l : List RItem) :
    get_poll_winner ⟨q, some l⟩ = none ↔ maxFrom 0 l ≤ 0 := by
  cases l with
  | nil => simp [get_poll_winner, maxFrom]
  | cons x xs =>
    have hscan := winnerScan_eq (x :: xs) 0 [] (le_refl 0)
    rw [if_neg (lt_irrefl 0), List.nil_append] at hscan
    simp only [get_poll_winner, hscan]
    have h0M : 0 ≤ maxFrom 0 (x :: xs) := le_maxFrom _ 0
    by_cases hpos : 0 < maxFrom 0 (x :: xs)
    · rw [if_pos hpos]
      obtain ⟨rm, hrm, hcm⟩ := maxFrom_exists (x :: xs) 0 hpos
      have hne : recsWithCount (maxFrom 0 (x :: xs)) (x :: xs) ≠ [] :=
        List.ne_nil_of_mem (mem_recsWithCount _ _ _ hrm hcm)
      have hcond : ¬ (recsWithCount (maxFrom 0 (x :: xs)) (x :: xs) = [] ∨
          maxFrom 0 (x :: xs) = 0) := by
        push_neg
        exact ⟨hne, by omega⟩
      rw [if_neg hcond]
      constructor
      · intro hh
        exact absurd (List.head?_eq_none_iff.mp hh) hne
      · intro hh
        exact absurd hpos (not_lt.mpr hh)
    · rw [if_neg hpos]
      have hz : maxFrom 0 (x :: xs) = 0 := le_antisymm (not_lt.mp hpos) h0M
      rw [if_pos (Or.inr hz)]
      simp [hz]

theorem get_poll_winner_pos (q : Option String) (l : List RItem)
    (h : 0 < maxFrom 0 l) :
    get_poll_winner ⟨q, some l⟩ = (recsWithCount (maxFrom 0 l) l).head? := by
  cases l with
  | nil => exact absurd h (lt_irrefl 0)
  | cons x xs =>
    have hscan := winnerScan_eq (x :: xs) 0 [] (le_refl 0)
    rw [if_neg (lt_irrefl 0), List.nil_append] at hscan
    simp only [get_poll_winner, hscan]
    rw [if_pos h]
    obtain ⟨rm, hrm, hcm⟩ := maxFrom_exists (x :: xs) 0 h
    have hne : recsWithCount (maxFrom 0 (x :: xs)) (x :: xs) ≠ [] :=
      List.ne_nil_of_mem (mem_recsWithCount _ _ _ hrm hcm)
    have hcond : ¬ (recsWithCount (maxFrom 0 (x :: xs)) (x :: xs) = [] ∨
        maxFrom 0 (x :: xs) = 0) := by
      push_neg
      exact ⟨hne, by omega⟩
    rw [if_neg hcond]

/-- Claim C3: the winner of `get_poll_winner` is null exactly when no option
has a strictly positive vote count (covering the empty list, missing votes
and the all-zero tie); otherwise it is the first option in original input
order whose count equals the maximum vote count — ties break by input order,
not by option id. -/
theorem get_poll_winner_spec (q : Option String) (rs : List RRec)
    (hval : ∀ r ∈ rs, (r.vote_count).isSome = true) :
    (get_poll_winner ⟨q, some (rs.map RItem.record)⟩ = none ↔
      ∀ r ∈ rs, r.vote_count.getD 0 ≤ 0)
    ∧ ((∃ r ∈ rs, 0 < r.vote_count.getD 0) →
      get_poll_winner ⟨q, some (rs.map RItem.record)⟩ =
        rs.find? (fun r => r.vote_count.getD 0 = maxVoteCount rs)) := by
  have hmapmem : ∀ r : RRec, RItem.record r ∈ rs.map RItem.record ↔ r ∈ rs := by
    intro r
    constructor
    · intro h
      obtain ⟨r', hr', he⟩ := List.mem_map.mp h
      cases he
      exact hr'
    · intro h
      exact List.mem_map_of_mem _ h
  constructor
  · rw [get_poll_winner_none_iff]
    constructor
    · intro hM r hr
      obtain ⟨v, hv⟩ := Option.isSome_iff_exists.mp (hval r hr)
      have hle := count_le_maxFrom (rs.map RItem.record) 0 r v ((hmapmem r).mpr hr) hv
      rw [hv]
      simp only [Option.getD_some]
      omega
    · intro hall
      by_contra hM
      push_neg at hM
      obtain ⟨rm, hrm, hcm⟩ := maxFrom_exists _ 0 hM
      have hr : rm ∈ rs := (hmapmem rm).mp hrm
      have hb := hall rm hr
      rw [hcm] at hb
      simp only [Option.getD_some] at hb
      omega
  · rintro ⟨rpos, hrpos, hcpos⟩
    obtain ⟨v, hv⟩ := Option.isSome_iff_exists.mp (hval rpos hrpos)
    rw [hv] at hcpos
    simp only [Option.getD_some] at hcpos
    have hvM : v ≤ maxFrom 0 (rs.map RItem.record) :=
      count_le_maxFrom _ 0 rpos v ((hmapmem rpos).mpr hrpos) hv
    have hMpos : 0 < maxFrom 0 (rs.map RItem.record) := lt_of_lt_of_le hcpos hvM
    rw [get_poll_winner_pos q _ hMpos, recsWithCount_map_record]
    have hMeq : maxFrom 0 (rs.map RItem.record) = maxVoteCount rs :=
      maxFrom_map_record rs 0 hval
    have hcongr : ∀ r ∈ rs,
        (decide (r.vote_count = some (maxFrom 0 (rs.map RItem.record)))) =
          (decide (r.vote_count.getD 0 = maxVoteCount rs)) := by
      intro r hr
      obtain ⟨v', hv'⟩ := Option.isSome_iff_exists.mp (hval r hr)
      rw [hv', hMeq]
      simp
    rw [List.filter_congr hcongr]
    exact head?_filter_eq_find? _ _

/-- Witness for C3: the tie `[{id 1, count 5}, {id 2, count 5}]` yields
option 1, and the all-zero list yields null. -/
theorem get_poll_winner_spec_witness :
    get_poll_winner ⟨none, some [RItem.record ⟨some 1, none, some 5⟩,
        RItem.record ⟨some 2, none, some 5⟩]⟩ = some ⟨some 1, none, some 5⟩
    ∧ get_poll_winner ⟨none, some [RItem.record ⟨none, none, some 0⟩,
        RItem.record ⟨none, none, some 0⟩]⟩ = none := by
  constructor
  · have h := (get_poll_winner_spec none [⟨some 1, none, some 5⟩, ⟨some 2, none, some 5⟩]
      (by decide)).2 ⟨⟨some 1, none, some 5⟩, by simp, by decide⟩
    exact h.trans (by rfl)
  · exact (get_poll_winner_spec none [⟨none, none, some 0⟩, ⟨none, none, some 0⟩]
      (by decide)).1.mpr (by decide)


/-! ### Claims C1 and C2: the pagination aggregator -/

/-- The `(skip, limit)` pairs of `n` consecutive aggregator calls starting at
`skip`: each call advances the offset by exactly the batch size. -/
def callSkips (b : Int) (skip : Int) : Nat → List (Int × Int)
  | 0 => []
  | n + 1 => (skip, b) :: callSkips b (skip + b) n

theorem callSkips_getElem (b skip : Int) : ∀ (n i : Nat), i < n →
    (callSkips b skip n)[i]? = some (skip + (i : Int) * b, b) := by
  intro n
  induction n generalizing skip with
  | zero => intro i h; omega
  | succ n ih =>
    intro i h
    cases i with
    | zero => simp [callSkips]
    | succ j =>
      simp only [callSkips, List.getElem?_cons_succ]
      rw [ih (skip + b) j (by omega)]
      have : skip + b + (j : Int) * b = skip + ((j : Int) + 1) * b := by ring
      rw [this]
      push_cast
      ring_nf

theorem fetchAllGo_ok {α : Type} (b : Int) (hb : 1 ≤ b) :
    ∀ (pre : List (List α)) (q : List α) (post : List (FetchResult α))
      (skip : Int) (acc : List α),
    (∀ p ∈ pre, b ≤ (p.length : Int)) → (q.length : Int) < b →
    fetchAllGo b (pre.map FetchResult.success ++ FetchResult.success q :: post) skip acc =
      (.ok (acc ++ pre.flatten ++ q), callSkips b skip (pre.length + 1)) := by
  intro pre
  induction pre with
  | nil =>
    intro q post skip acc _ hq
    cases q with
    | nil => simp [fetchAllGo, callSkips]
    | cons q0 qs =>
      simp only [List.map_nil, List.nil_append, fetchAllGo, if_pos hq, callSkips]
      simp
  | cons p rest ih =>
    intro q post skip acc hfull hq
    have hp : b ≤ (p.length : Int) := hfull p (List.mem_cons_self _ _)
    have hrest : ∀ p' ∈ rest, b ≤ (p'.length : Int) :=
      fun p' hp' => hfull p' (List.mem_cons_of_mem _ hp')
    cases p with
    | nil =>
      exfalso
      simp only [List.length_nil, Nat.cast_zero] at hp
      omega
    | cons p0 ps =>
      have hplt : ¬ (((p0 :: ps).length : Int) < b) := not_lt.mpr hp
      simp only [List.map_cons, List.cons_append, fetchAllGo, if_neg hplt, List.append_eq]
      rw [ih q post (skip + b) (acc ++ (p0 :: ps)) hrest hq]
      simp [callSkips, List.flatten, List.append_assoc]

theorem fetchAllGo_err {α : Type} (b : Int) (hb : 1 ≤ b) :
    ∀ (pre : List (List α)) (m : Option String) (post : List (FetchResult α))
      (skip : Int) (acc : List α),
    (∀ p ∈ pre, b ≤ (p.length : Int)) →
    fetchAllGo b (pre.map FetchResult.success ++ FetchResult.failure m :: post) skip acc =
      (.error ("Failed to fetch polls at skip=" ++ toString (skip + (pre.length : Int) * b) ++
         ": " ++ pyOr m "Unknown error"),
       callSkips b skip (pre.length + 1)) := by
  intro pre
  induction pre with
  | nil =>
    intro m post skip acc _
    simp [fetchAllGo, callSkips]
  | cons p rest ih =>
    intro m post skip acc hfull
    have hp : b ≤ (p.length : Int) := hfull p (List.mem_cons_self _ _)
    have hrest : ∀ p' ∈ rest, b ≤ (p'.length : Int) :=
      fun p' hp' => hfull p' (List.mem_cons_of_mem _ hp')
    cases p with
    | nil =>
      exfalso
      simp only [List.length_nil, Nat.cast_zero] at hp
      omega
    | cons p0 ps =>
      have hplt : ¬ (((p0 :: ps).length : Int) < b) := not_lt.mpr hp
      simp only [List.map_cons, List.cons_append, fetchAllGo, if_neg hplt, List.append_eq]
      rw [ih m post (skip + b) (acc ++ (p0 :: ps)) hrest]
      have harith : skip + b + (rest.length : Int) * b =
          skip + (((p0 :: ps) :: rest).length : Int) * b := by
        simp only [List.length_cons]
        push_cast
        ring
      rw [harith]
      simp [callSkips]

/-- Claim C1: for every batch size in [1,100], `fetch_all_polls` starts at
offset 0, fetches consecutive pages advancing the offset by exactly the batch
size, stops at the first empty or strictly short page (never consuming later
responses), and returns the concatenation of the fetched pages; call `i`
carries `skip = i * batchSize` and `limit = batchSize`. -/
theorem fetch_all_polls_pagination {α : Type} (b : Int) (hb1 : 1 ≤ b) (hb2 : b ≤ 100)
    (pre : List (List α)) (q : List α) (post : List (FetchResult α))
    (hfull : ∀ p ∈ pre, b ≤ (p.length : Int)) (hq : (q.length : Int) < b) :
    fetch_all_polls b (pre.map FetchResult.success ++ FetchResult.success q :: post) =
      (.ok (pre.flatten ++ q), callSkips b 0 (pre.length + 1))
    ∧ ∀ i, i < pre.length + 1 →
      (callSkips b 0 (pre.length + 1))[i]? = some ((i : Int) * b, b) := by
  constructor
  · rw [fetch_all_polls, if_neg (by omega : ¬ (b ≤ 0 ∨ 100 < b))]
    rw [fetchAllGo_ok b hb1 pre q post 0 [] hfull hq]
    simp
  · intro i hi
    rw [callSkips_getElem b 0 (pre.length + 1) i hi]
    simp

/-- Witness for C1: batch size 2 against pages `[2 items], [0 items]` returns
the 2 items in 2 calls, the second with skip 2. -/
theorem fetch_all_polls_pagination_witness :
    fetch_all_polls 2 [FetchResult.success [10, 20], FetchResult.success ([] : List Nat)] =
      (.ok [10, 20], [(0, 2), (2, 2)]) := by
  have h := (fetch_all_polls_pagination 2 (by decide) (by decide) [[10, 20]] [] []
    (by decide) (by decide)).1
  exact h.trans (by rfl)

/-- Claim C2: `fetch_all_polls` is atomic — as soon as one of its
`fetch_polls` calls comes back as a Failure, the whole operation raises a
single aggregated error naming the offset at which it failed, and no
partial accumulated results are returned. -/
theorem fetch_all_polls_atomic {α : Type} (b : Int) (hb1 : 1 ≤ b) (hb2 : b ≤ 100)
    (pre : List (List α)) (m : Option String) (post : List (FetchResult α))
    (hfull : ∀ p ∈ pre, b ≤ (p.length : Int)) :
    fetch_all_polls b (pre.map FetchResult.success ++ FetchResult.failure m :: post) =
      (.error ("Failed to fetch polls at skip=" ++ toString ((pre.length : Int) * b) ++
         ": " ++ pyOr m "Unknown error"),
       callSkips b 0 (pre.length + 1))
    ∧ ∀ polls, (fetch_all_polls b (pre.map FetchResult.success ++
        FetchResult.failure m :: post)).1 ≠ FetchOutcome.ok polls := by
  have hmain : fetch_all_polls b (pre.map FetchResult.success ++
      FetchResult.failure m :: post) =
      (.error ("Failed to fetch polls at skip=" ++ toString ((pre.length : Int) * b) ++
         ": " ++ pyOr m "Unknown error"),
       callSkips b 0 (pre.length + 1)) := by
    rw [fetch_all_polls, if_neg (by omega : ¬ (b ≤ 0 ∨ 100 < b))]
    rw [fetchAllGo_err b hb1 pre m post 0 [] hfull]
    simp
  refine ⟨hmain, ?_⟩
  intro polls
  rw [hmain]
  simp

/-- Witness for C2: a failure on the second call aborts with the offset in
the message and no ok outcome. -/
theorem fetch_all_polls_atomic_witness :
    fetch_all_polls 2 ([FetchResult.success [10, 20], FetchResult.failure (some "boom")] :
        List (FetchResult Nat)) =
      (.error "Failed to fetch polls at skip=2: boom", [(0, 2), (2, 2)]) := by
  have h := (fetch_all_polls_atomic 2 (by decide) (by decide) [[10, 20]] (some "boom")
    ([] : List (FetchResult Nat)) (by decide)).1
  exact h.trans (by rfl)

/-- Witness for the amended C4: an all-zero two-option poll has total 0 and a
null winner. -/
theorem get_poll_statistics_winner_null_witness :
    Stats.winner ⟨1, "", 0, 2, none,
      [⟨some 1, some "a", 0, round1 0⟩, ⟨some 2, some "b", 0, round1 0⟩]⟩ = none :=
  get_poll_statistics_winner_null 1 none
    [RItem.record ⟨some 1, some "a", some 0⟩, RItem.record ⟨some 2, some "b", some 0⟩]
    ⟨1, "", 0, 2, none, [⟨some 1, some "a", 0, round1 0⟩, ⟨some 2, some "b", 0, round1 0⟩]⟩
    (by
      intro r hr
      simp only [List.mem_cons, List.not_mem_nil, or_false] at hr
      rcases hr with h | h
      · injection h with h2
        subst h2
        decide
      · injection h with h2
        subst h2
        decide)
    rfl rfl
